import Mathlib

/-!
Verification development for the PriceTrek price tracker (github.com/makalin/pricetrek).

This file gives a shallow embedding of the parts of the repository that the
verified properties are about:

* the SQLite-backed price store (`internal/storage/storage.go`): `SavePrice`,
  `GetPrices`, `GetLatestPrice`.  The store is modelled as the list of rows of
  the `prices` table in insertion (rowid) order; `GetPrices` mirrors the
  `WHERE item_id = ? ORDER BY ts DESC LIMIT ?` query as a stable descending
  sort on the timestamp (SQLite leaves the order of equal timestamps
  unspecified; rowid order, i.e. stability, is the usual behaviour).
  Timestamps are modelled as naturals and Go `float64` prices as exact
  rationals; all theorems about the percent-drop division carry a
  `previous price ≠ 0` hypothesis where Go's IEEE semantics (Inf/NaN)
  would diverge from rational arithmetic.
* the tracker (`internal/tracker/tracker.go`): `TrackItem`, `TrackAll`,
  `checkItemAlerts`, `CheckAlerts`.  The provider lookup and the network
  fetch are external effects and enter the model as `Except` valued inputs;
  the imperative functions return the resulting store, a trace of the
  storage/evaluation operations they performed, and the returned `error`
  (`Option String`, `none` for Go's `nil`).
* the notification fan-out (`internal/notifications/notifications.go`):
  `NotificationManager.build` mirrors `New` (one channel per enabled
  config entry) and `NotificationManager.Send` mirrors the delivery loop;
  the per-channel transports are external and enter as function-valued
  channel data.
* the config defaulting of the global percent-drop rule
  (`internal/config/config.go`, `Load`): `loadPercentDrop`.
* the retry backoff of the resilience layer.  The `internal/providers`
  package is not part of the source snapshot, so the backoff is modelled
  from the specification (see `backoffDelay`).
-/

namespace PriceTrek

/-- A JSON-representable metadata value, covering the values the provider
contract puts in the `meta` map (`in_stock` booleans, numbers, strings).
Go's `map[string]interface{}` / JSON round-trip is the identity on this
fragment, so serialisation is modelled as the identity. -/
inductive MetaVal where
  | str (s : String)
  | num (q : ℚ)
  | bool (b : Bool)
deriving DecidableEq

/-- The free-form metadata map attached to a price sample. -/
abbrev Meta := List (String × MetaVal)

/-- One row of the `prices` table
(`prices(item_id TEXT, ts DATETIME, price REAL, currency TEXT, meta TEXT)`).
`meta = none` models Go's `nil` map, stored as the empty string and read
back as `nil`. -/
structure Row where
  itemId : String
  ts : Nat
  price : ℚ
  currency : String
  meta : Option Meta
deriving DecidableEq

/-- The `prices` table in insertion (rowid) order. -/
abbrev Store := List Row

/-- `sqliteStorage.SavePrice` (storage.go lines 121-142): a plain
`INSERT INTO prices` of the given values; no validation of the price or the
currency is performed. -/
def SavePrice (st : Store) (itemId : String) (now : Nat) (price : ℚ)
    (currency : String) (meta : Option Meta) : Store :=
  st ++ [⟨itemId, now, price, currency, meta⟩]

/-- Insert a row into a list already sorted by descending timestamp, keeping
it before later rows with the same timestamp (stability). -/
def insertTsDesc (r : Row) : List Row → List Row
  | [] => [r]
  | s :: rest => if r.ts < s.ts then s :: insertTsDesc r rest else r :: s :: rest

/-- Stable sort by descending timestamp, modelling `ORDER BY ts DESC` with
equal timestamps kept in rowid order. -/
def sortTsDesc : List Row → List Row
  | [] => []
  | r :: rest => insertTsDesc r (sortTsDesc rest)

/-- `sqliteStorage.GetPrices` (storage.go lines 144-179):
`SELECT ... WHERE item_id = ? ORDER BY ts DESC LIMIT ?`. -/
def GetPrices (st : Store) (itemId : String) (limit : Nat) : List Row :=
  (sortTsDesc (st.filter (fun r => r.itemId == itemId))).take limit

/-- `sqliteStorage.GetLatestPrice` (storage.go lines 181-210): the same query
with `LIMIT 1`, `nil` when no row exists. -/
def GetLatestPrice (st : Store) (itemId : String) : Option Row :=
  (GetPrices st itemId 1).head?

/-- `config.RulesConfig`: the global alert-rule defaults. -/
structure RulesConfig where
  percentDrop : ℚ
  targetPrice : Option ℚ
deriving DecidableEq

/-- `config.Load`'s defaulting of `Rules.PercentDrop` (config.go lines
144-146): a zero (i.e. unconfigured) value becomes the global default 8.0. -/
def loadPercentDrop (raw : ℚ) : ℚ :=
  if raw = 0 then 8 else raw

/-- `config.ItemConfig`, restricted to the fields the tracker and the rule
evaluator read. -/
structure ItemConfig where
  id : String
  name : String
  provider : String
  currency : String
  targetPrice : Option ℚ
  percentDrop : Option ℚ
deriving DecidableEq

/-- An alert event as emitted (logged) by `checkItemAlerts`; the fields are
exactly the values the code logs for each alert kind. -/
inductive Alert where
  | targetReached (itemId : String) (current target : ℚ)
  | percentDrop (itemId : String) (current previous dropPercent : ℚ)
deriving DecidableEq

/-- The effective percent-drop threshold of `checkItemAlerts` (tracker.go
lines 113-116): the item's `PercentDrop` when set, else the global
`Rules.PercentDrop`. -/
def percentDropThreshold (rules : RulesConfig) (item : ItemConfig) : ℚ :=
  match item.percentDrop with
  | some d => d
  | none => rules.percentDrop

/-- The target-price check of `checkItemAlerts` (tracker.go lines 102-110):
when the item defines `TargetPrice` and the latest price is `≤` the target
(inclusive), the target alert is emitted. -/
def targetAlertsOf (item : ItemConfig) (latest : Row) : List Alert :=
  match item.targetPrice with
  | some t =>
    if latest.price ≤ t then [.targetReached item.id latest.price t] else []
  | none => []

/-- The percent-drop check of `checkItemAlerts` (tracker.go lines 112-131):
when the effective threshold is positive, compute
`((previous - latest) / previous) * 100` on the second most recent sample
and emit the drop alert when the drop reaches the threshold.  No currency
comparison and no zero check of the previous price appear in the source. -/
def dropAlertsOf (rules : RulesConfig) (item : ItemConfig) (latest p1 : Row) :
    List Alert :=
  let eff := percentDropThreshold rules item
  if 0 < eff then
    let dropPercent := ((p1.price - latest.price) / p1.price) * 100
    if eff ≤ dropPercent then
      [.percentDrop item.id latest.price p1.price dropPercent]
    else []
  else []

/-- `Tracker.checkItemAlerts` (tracker.go lines 83-134).  Faithful to the
source: it returns early when there is no latest price or fewer than 2
recent prices (before the target check), then runs the target check and the
percent-drop check on the latest price and `prices[1]`. -/
def checkItemAlerts (rules : RulesConfig) (item : ItemConfig) (st : Store) :
    List Alert :=
  match GetLatestPrice st item.id with
  | none => []
  | some latest =>
    match GetPrices st item.id 5 with
    | _p0 :: p1 :: _ =>
      targetAlertsOf item latest ++ dropAlertsOf rules item latest p1
    | _ => []

/-- Trace of the observable operations a tracker call performs: a storage
write of a sample for an item, or a rule evaluation for an item. -/
inductive TraceEv where
  | save (itemId : String)
  | evalRules (itemId : String)
deriving DecidableEq

/-- Whether a trace event is a rule evaluation. -/
def TraceEv.isEval : TraceEv → Bool
  | .evalRules _ => true
  | .save _ => false

/-- The sample a provider's `Fetch` returns (`providers.PriceSample`):
price, currency and the metadata map. -/
structure Sample where
  price : ℚ
  currency : String
  meta : Option Meta
deriving DecidableEq

/-- `Tracker.TrackItem` (tracker.go lines 27-54).  The provider lookup
(`providers.GetProvider`) and the fetch (`provider.Fetch`) are external and
are passed as their `Except` outcomes.  On a lookup or fetch error the
wrapped error is returned and nothing is written; on success the sample is
appended via `SavePrice` and the call returns `nil`.  The source performs no
rule evaluation inside `TrackItem`. -/
def TrackItem (getProv : Except String Unit) (fetch : Except String Sample)
    (item : ItemConfig) (now : Nat) (st : Store) :
    Store × List TraceEv × Option String :=
  match getProv with
  | .error e => (st, [], some ("failed to get provider: " ++ e))
  | .ok _ =>
    match fetch with
    | .error e => (st, [], some ("failed to fetch price: " ++ e))
    | .ok sample =>
      (SavePrice st item.id now sample.price sample.currency sample.meta,
       [.save item.id], none)

/-- The loop body of `Tracker.TrackAll` (tracker.go lines 59-64): run
`TrackItem` for each item, log and skip failures (`continue`). -/
def trackLoop (getProv : ItemConfig → Except String Unit)
    (fetch : ItemConfig → Except String Sample) :
    List ItemConfig → Nat → Store → Store × List TraceEv
  | [], _, st => (st, [])
  | item :: rest, now, st =>
    let r1 := TrackItem (getProv item) (fetch item) item now st
    let r2 := trackLoop getProv fetch rest now r1.1
    (r2.1, r1.2.1 ++ r2.2)

/-- `Tracker.TrackAll` (tracker.go lines 56-68): the loop over all configured
items followed by `return nil` — the returned status is `nil` no matter how
many items failed. -/
def TrackAll (getProv : ItemConfig → Except String Unit)
    (fetch : ItemConfig → Except String Sample)
    (items : List ItemConfig) (now : Nat) (st : Store) :
    Store × List TraceEv × Option String :=
  let r := trackLoop getProv fetch items now st
  (r.1, r.2, none)

/-- `Tracker.CheckAlerts` (tracker.go lines 70-81): evaluate the alert rules
for every configured item, tracing one `evalRules` event per item. -/
def CheckAlerts (rules : RulesConfig) (items : List ItemConfig) (st : Store) :
    List Alert × List TraceEv :=
  match items with
  | [] => ([], [])
  | item :: rest =>
    let alerts := checkItemAlerts rules item st
    let r := CheckAlerts rules rest st
    (alerts ++ r.1, .evalRules item.id :: r.2)

/-- A notification channel: its identity and its external transport
(`Notifier.Send`), modelled as a function returning the delivery outcome. -/
structure NotifChannel where
  id : String
  send : String → Except String Unit

/-- Which notification channels the configuration enables
(`config.NotificationsConfig` `Enabled` flags). -/
structure NotificationsEnabled where
  email : Bool
  telegram : Bool
  slack : Bool
  ntfy : Bool
deriving DecidableEq

namespace NotificationManager

/-- `notifications.New` (notifications.go): build the notifier list, one
channel per enabled configuration entry, in the source's fixed order. -/
def build (cfg : NotificationsEnabled)
    (email telegram slack ntfy : NotifChannel) : List NotifChannel :=
  (if cfg.email then [email] else []) ++
  (if cfg.telegram then [telegram] else []) ++
  (if cfg.slack then [slack] else []) ++
  (if cfg.ntfy then [ntfy] else [])

/-- The delivery loop of `NotificationManager.Send`: attempt every channel
in order; a failing channel only contributes a log line and never stops the
iteration.  Returns the attempted channel ids and the logged failures. -/
def sendLoop : List NotifChannel → String → List String × List String
  | [], _ => ([], [])
  | n :: rest, msg =>
    let logged : List String :=
      match n.send msg with
      | .error e => ["Failed to send notification: " ++ e]
      | .ok _ => []
    let r := sendLoop rest msg
    (n.id :: r.1, logged ++ r.2)

/-- `NotificationManager.Send` (notifications.go lines 56-64): run the loop
over all channels, then `return nil` unconditionally. -/
def Send (ns : List NotifChannel) (msg : String) :
    List String × List String × Option String :=
  let r := sendLoop ns msg
  (r.1, r.2, none)

end NotificationManager

/-- Modelled from the spec: the retry backoff of the resilience wrapper.
The `internal/providers` package is absent from the source snapshot, so this
follows §4.3 of the specification verbatim: the delay before try `n`
(`n ≥ 2`) is `min(maxDelay, baseDelay * 2^(n-2)) + uniformRandom(0,
baseDelay)`; `jitter` stands for the sampled uniform value. -/
def backoffDelay (baseDelay maxDelay : ℚ) (n : Nat) (jitter : ℚ) : ℚ :=
  min maxDelay (baseDelay * 2 ^ (n - 2)) + jitter

/-- Modelled from the spec: the expectation of `backoffDelay` over the
uniform jitter on `[0, baseDelay]`, whose mean is `baseDelay / 2`. -/
def expectedBackoffDelay (baseDelay maxDelay : ℚ) (n : Nat) : ℚ :=
  min maxDelay (baseDelay * 2 ^ (n - 2)) + baseDelay / 2

/-- The invariant claimed by §3 of the spec, stated from the spec's words
for comparison with the code's behaviour: a stored sample has a strictly
positive price and a three-letter currency code equal to its item's. -/
def specSampleInvariant (itemCurrency : String) (r : Row) : Bool :=
  decide (0 < r.price) && (r.currency.length == 3) &&
    (r.currency == itemCurrency)

/-- Replace the currency code of a row by an arbitrary function of the row;
used to state that the rule evaluator never reads the currency column. -/
def setCurrency (f : Row → String) (r : Row) : Row :=
  { r with currency := f r }

end PriceTrek

namespace PriceTrek

/-! ### Helper lemmas -/

@[simp]
theorem setCurrency_itemId (f : Row → String) (r : Row) :
    (setCurrency f r).itemId = r.itemId := rfl

@[simp]
theorem setCurrency_ts (f : Row → String) (r : Row) :
    (setCurrency f r).ts = r.ts := rfl

@[simp]
theorem setCurrency_price (f : Row → String) (r : Row) :
    (setCurrency f r).price = r.price := rfl

theorem filter_map_setCurrency (f : Row → String) (itemId : String) :
    ∀ l : List Row,
      (l.map (setCurrency f)).filter (fun r => r.itemId == itemId) =
        (l.filter (fun r => r.itemId == itemId)).map (setCurrency f) := by
  intro l
  induction l with
  | nil => rfl
  | cons a l ih =>
    simp only [List.map_cons, List.filter_cons, setCurrency_itemId]
    by_cases h : (a.itemId == itemId) = true
    · simp [h, ih]
    · simp [h, ih]

theorem insertTsDesc_map_setCurrency (f : Row → String) (r : Row) :
    ∀ l : List Row,
      insertTsDesc (setCurrency f r) (l.map (setCurrency f)) =
        (insertTsDesc r l).map (setCurrency f) := by
  intro l
  induction l with
  | nil => rfl
  | cons s l ih =>
    simp only [List.map_cons, insertTsDesc, setCurrency_ts]
    by_cases h : r.ts < s.ts
    · simp [h, ih]
    · simp [h]

theorem sortTsDesc_map_setCurrency (f : Row → String) :
    ∀ l : List Row,
      sortTsDesc (l.map (setCurrency f)) = (sortTsDesc l).map (setCurrency f) := by
  intro l
  induction l with
  | nil => rfl
  | cons r l ih =>
    simp only [List.map_cons, sortTsDesc, ih, insertTsDesc_map_setCurrency]

theorem GetPrices_map_setCurrency (f : Row → String) (st : Store)
    (itemId : String) (limit : Nat) :
    GetPrices (st.map (setCurrency f)) itemId limit =
      (GetPrices st itemId limit).map (setCurrency f) := by
  unfold GetPrices
  rw [filter_map_setCurrency, sortTsDesc_map_setCurrency, List.map_take]

theorem GetLatestPrice_map_setCurrency (f : Row → String) (st : Store)
    (itemId : String) :
    GetLatestPrice (st.map (setCurrency f)) itemId =
      (GetLatestPrice st itemId).map (setCurrency f) := by
  unfold GetLatestPrice
  rw [GetPrices_map_setCurrency, List.head?_map]

theorem sortTsDesc_append_max (x : Row) :
    ∀ l : List Row, (∀ r ∈ l, r.ts < x.ts) →
      sortTsDesc (l ++ [x]) = x :: sortTsDesc l := by
  intro l
  induction l with
  | nil => intro _; rfl
  | cons a l ih =>
    intro h
    have ha : a.ts < x.ts := h a (List.mem_cons_self a l)
    have hrec := ih (fun r hr => h r (List.mem_cons_of_mem a hr))
    have h1 : sortTsDesc ((a :: l) ++ [x]) = insertTsDesc a (sortTsDesc (l ++ [x])) := rfl
    rw [h1, hrec]
    simp only [insertTsDesc, ha, if_pos]
    rfl

end PriceTrek

namespace PriceTrek

theorem targetAlertsOf_setCurrency (item : ItemConfig) (f : Row → String)
    (latest : Row) :
    targetAlertsOf item (setCurrency f latest) = targetAlertsOf item latest := rfl

theorem dropAlertsOf_setCurrency (rules : RulesConfig) (item : ItemConfig)
    (f : Row → String) (latest p1 : Row) :
    dropAlertsOf rules item (setCurrency f latest) (setCurrency f p1) =
      dropAlertsOf rules item latest p1 := rfl

theorem mem_targetAlertsOf_iff (item : ItemConfig) (latest : Row) (t : ℚ)
    (ht : item.targetPrice = some t) :
    (Alert.targetReached item.id latest.price t ∈ targetAlertsOf item latest ↔
      latest.price ≤ t) := by
  unfold targetAlertsOf
  rw [ht]
  by_cases h : latest.price ≤ t
  · simp [h]
  · simp [h]

theorem percentDrop_not_mem_targetAlertsOf (item : ItemConfig) (latest : Row)
    (a : String) (b c d : ℚ) :
    Alert.percentDrop a b c d ∉ targetAlertsOf item latest := by
  unfold targetAlertsOf
  cases item.targetPrice with
  | none => simp
  | some t =>
    by_cases h : latest.price ≤ t
    · simp [h]
    · simp [h]

theorem mem_dropAlertsOf_iff (rules : RulesConfig) (item : ItemConfig)
    (latest p1 : Row) :
    (Alert.percentDrop item.id latest.price p1.price
        (((p1.price - latest.price) / p1.price) * 100) ∈
        dropAlertsOf rules item latest p1 ↔
      0 < percentDropThreshold rules item ∧
        percentDropThreshold rules item ≤
          ((p1.price - latest.price) / p1.price) * 100) := by
  unfold dropAlertsOf
  by_cases h0 : 0 < percentDropThreshold rules item
  · by_cases hd : percentDropThreshold rules item ≤
        ((p1.price - latest.price) / p1.price) * 100
    · simp [h0, hd]
    · simp [h0, hd]
  · simp [h0]

theorem targetReached_not_mem_dropAlertsOf (rules : RulesConfig)
    (item : ItemConfig) (latest p1 : Row) (a : String) (b c : ℚ) :
    Alert.targetReached a b c ∉ dropAlertsOf rules item latest p1 := by
  unfold dropAlertsOf
  by_cases h0 : 0 < percentDropThreshold rules item
  · by_cases hd : percentDropThreshold rules item ≤
        ((p1.price - latest.price) / p1.price) * 100
    · simp [h0, hd]
    · simp [h0, hd]
  · simp [h0]

theorem sendLoop_attempts (msg : String) :
    ∀ ns : List NotifChannel,
      (NotificationManager.sendLoop ns msg).1 = ns.map NotifChannel.id := by
  intro ns
  induction ns with
  | nil => rfl
  | cons n rest ih => simp [NotificationManager.sendLoop, ih]

theorem trackLoop_eq (getProv : ItemConfig → Except String Unit)
    (fetch : ItemConfig → Except String Sample) :
    ∀ (items : List ItemConfig) (now : Nat) (st : Store),
      trackLoop getProv fetch items now st =
        (st ++ items.filterMap (fun i =>
            match getProv i, fetch i with
            | .ok _, .ok s => some ⟨i.id, now, s.price, s.currency, s.meta⟩
            | _, _ => none),
         items.filterMap (fun i =>
            match getProv i, fetch i with
            | .ok _, .ok _ => some (TraceEv.save i.id)
            | _, _ => none)) := by
  intro items
  induction items with
  | nil => intro now st; simp [trackLoop]
  | cons i rest ih =>
    intro now st
    simp only [trackLoop, List.filterMap_cons]
    cases hg : getProv i with
    | error e => simp [TrackItem, hg, ih]
    | ok u =>
      cases hf : fetch i with
      | error e => simp [TrackItem, hg, hf, ih]
      | ok sp => simp [TrackItem, hg, hf, ih, SavePrice, List.append_assoc]

end PriceTrek

namespace PriceTrek

/-! ### Claim C1 -/

/-- C1, counterexample.  The claim says the evaluator skips the percent-drop
comparison (no alert) whenever the two compared samples have different
currency codes.  On the concrete history below, the previous sample is in
EUR and the latest in USD, yet `checkItemAlerts` compares the raw numbers
and fires the percent-drop alert (drop 50% against the item threshold 8):
the guard claimed by the spec does not exist in tracker.go lines 113-131. -/
theorem percentDrop_fires_despite_currency_mismatch :
    checkItemAlerts ⟨8, none⟩ ⟨"a", "A", "generic", "USD", none, some 8⟩
        [⟨"a", 1, 100, "EUR", none⟩, ⟨"a", 2, 50, "USD", none⟩] =
      [Alert.percentDrop "a" 50 100 50] ∧
    (GetPrices [⟨"a", 1, 100, "EUR", none⟩, ⟨"a", 2, 50, "USD", none⟩] "a"
        5).map (fun r => r.currency) = ["USD", "EUR"] := by
  constructor
  · norm_num [checkItemAlerts, GetLatestPrice, GetPrices, sortTsDesc,
      insertTsDesc, List.filter, targetAlertsOf, dropAlertsOf,
      percentDropThreshold]
  · norm_num [GetPrices, sortTsDesc, insertTsDesc, List.filter]

/-- C1, amended.  `checkItemAlerts` never reads the currency column: its
output is unchanged under an arbitrary reassignment of every stored row's
currency code.  Hence the comparison is performed (and can fire, see the
counterexample) regardless of whether the previous and current samples share
a currency, and no zero-price or currency guard is applied. -/
theorem checkItemAlerts_ignores_currency (rules : RulesConfig)
    (item : ItemConfig) (f : Row → String) (st : Store) :
    checkItemAlerts rules item (st.map (setCurrency f)) =
      checkItemAlerts rules item st := by
  unfold checkItemAlerts
  rw [GetLatestPrice_map_setCurrency, GetPrices_map_setCurrency]
  cases hl : GetLatestPrice st item.id with
  | none => simp
  | some latest =>
    cases hp : GetPrices st item.id 5 with
    | nil => simp
    | cons p0 tl =>
      cases tl with
      | nil => simp
      | cons p1 tl2 =>
        simp only [Option.map_some', List.map_cons]
        rw [targetAlertsOf_setCurrency, dropAlertsOf_setCurrency]

/-! ### Claim C2 -/

/-- C2, counterexample.  The claim says `target_reached` needs only the
current sample and fires even without a predecessor.  With a single stored
sample whose price 50 equals the item's target 50, `checkItemAlerts`
returns no alert at all: tracker.go line 98 returns before the target check
whenever fewer than 2 samples exist. -/
theorem targetReached_not_fired_single_sample :
    checkItemAlerts ⟨8, none⟩ ⟨"a", "A", "generic", "USD", some 50, none⟩
      [⟨"a", 1, 50, "USD", none⟩] = [] := by
  norm_num [checkItemAlerts, GetLatestPrice, GetPrices, sortTsDesc,
    insertTsDesc, List.filter]

/-- C2, amended.  For an item that defines `target_price`, and whose history
holds at least 2 samples (the evaluator returns early otherwise, so even the
target alert does need a predecessor sample), `target_reached` fires exactly
when the latest price is `≤` the target — the boundary is inclusive. -/
theorem targetReached_iff_with_history (rules : RulesConfig)
    (item : ItemConfig) (st : Store) (latest p0 p1 : Row) (rest : List Row)
    (t : ℚ) (ht : item.targetPrice = some t)
    (hl : GetLatestPrice st item.id = some latest)
    (hp : GetPrices st item.id 5 = p0 :: p1 :: rest) :
    (Alert.targetReached item.id latest.price t ∈
        checkItemAlerts rules item st ↔ latest.price ≤ t) := by
  unfold checkItemAlerts
  rw [hl, hp]
  simp only [List.mem_append]
  rw [mem_targetAlertsOf_iff item latest t ht]
  constructor
  · rintro (h | h)
    · exact h
    · exact absurd h (targetReached_not_mem_dropAlertsOf rules item latest p1
        item.id latest.price t)
  · exact Or.inl

/-- C2, witness: with two stored samples and `target_price = 50`, a latest
price of exactly 50 fires `target_reached` (inclusive boundary). -/
theorem targetReached_boundary_witness :
    Alert.targetReached "a" 50 50 ∈
      checkItemAlerts ⟨8, none⟩ ⟨"a", "A", "generic", "USD", some 50, none⟩
        [⟨"a", 1, 60, "USD", none⟩, ⟨"a", 2, 50, "USD", none⟩] :=
  (targetReached_iff_with_history ⟨8, none⟩
      ⟨"a", "A", "generic", "USD", some 50, none⟩
      [⟨"a", 1, 60, "USD", none⟩, ⟨"a", 2, 50, "USD", none⟩]
      ⟨"a", 2, 50, "USD", none⟩ ⟨"a", 2, 50, "USD", none⟩
      ⟨"a", 1, 60, "USD", none⟩ [] 50 rfl
      (by norm_num [GetLatestPrice, GetPrices, sortTsDesc, insertTsDesc,
        List.filter])
      (by norm_num [GetPrices, sortTsDesc, insertTsDesc, List.filter])).mpr
    (by norm_num)

/-! ### Claim C3 -/

/-- C3.  `TrackItem` (tracker.go lines 27-54), run on a successful fetch,
appends the sample to storage and returns `nil` — its trace holds the
storage write and no rule-evaluation event.  The repository's own README
states that "Rules are evaluated on each new sample", but nothing in
`TrackItem` (nor any caller of `CheckAlerts`) evaluates the rules after the
write. -/
theorem trackItem_performs_no_rule_evaluation :
    TrackItem (.ok ()) (.ok ⟨50, "USD", none⟩)
        ⟨"a", "A", "generic", "USD", none, none⟩ 3 [] =
      ([⟨"a", 3, 50, "USD", none⟩], [TraceEv.save "a"], none) ∧
    ((TrackItem (.ok ()) (.ok ⟨50, "USD", none⟩)
        ⟨"a", "A", "generic", "USD", none, none⟩ 3 []).2.1.filter
          TraceEv.isEval) = [] := by
  constructor
  · norm_num [TrackItem, SavePrice]
  · norm_num [TrackItem, SavePrice, TraceEv.isEval, List.filter]

/-! ### Claim C4 -/

/-- C4, counterexample.  The claim says `TrackAll`'s final status reports
the exact count of failed items.  Over three items where item `b`'s fetch
always fails, `TrackAll` writes the samples of `a` and `c` and returns
status `none` (Go `nil`) — the same status as the run in which nothing
fails, so the status reports no failure count at all. -/
theorem trackAll_status_ignores_failures :
    TrackAll (fun _ => .ok ())
        (fun i => if i.id = "b" then .error "boom" else .ok ⟨10, "USD", none⟩)
        [⟨"a", "A", "generic", "USD", none, none⟩,
         ⟨"b", "B", "generic", "USD", none, none⟩,
         ⟨"c", "C", "generic", "USD", none, none⟩] 7 [] =
      ([⟨"a", 7, 10, "USD", none⟩, ⟨"c", 7, 10, "USD", none⟩],
       [TraceEv.save "a", TraceEv.save "c"], none) ∧
    (TrackAll (fun _ => .ok ()) (fun _ => .ok ⟨10, "USD", none⟩)
        [⟨"a", "A", "generic", "USD", none, none⟩,
         ⟨"b", "B", "generic", "USD", none, none⟩,
         ⟨"c", "C", "generic", "USD", none, none⟩] 7 []).2.2 =
      (TrackAll (fun _ => .ok ())
        (fun i => if i.id = "b" then .error "boom" else .ok ⟨10, "USD", none⟩)
        [⟨"a", "A", "generic", "USD", none, none⟩,
         ⟨"b", "B", "generic", "USD", none, none⟩,
         ⟨"c", "C", "generic", "USD", none, none⟩] 7 []).2.2 := by
  constructor
  · simp [TrackAll, trackLoop, TrackItem, SavePrice]
  · simp [TrackAll, trackLoop, TrackItem, SavePrice]

/-- C4, amended.  `TrackAll` runs `TrackItem` for every configured item and
a failure of one item never prevents the remaining items' samples from
being written: the resulting store extends the initial one with exactly the
samples of the items whose lookup and fetch succeeded, in order.  However
the final status is always `none` (Go `nil`): the count of failures is only
logged per item, never reported to the caller. -/
theorem trackAll_isolates_failures_and_returns_nil
    (getProv : ItemConfig → Except String Unit)
    (fetch : ItemConfig → Except String Sample)
    (items : List ItemConfig) (now : Nat) (st : Store) :
    TrackAll getProv fetch items now st =
      (st ++ items.filterMap (fun i =>
          match getProv i, fetch i with
          | .ok _, .ok s => some ⟨i.id, now, s.price, s.currency, s.meta⟩
          | _, _ => none),
       items.filterMap (fun i =>
          match getProv i, fetch i with
          | .ok _, .ok _ => some (TraceEv.save i.id)
          | _, _ => none),
       none) := by
  unfold TrackAll
  rw [trackLoop_eq]

end PriceTrek

namespace PriceTrek

/-! ### Claim C5 -/

/-- C5, counterexample.  The claim says the percent-drop alert fires exactly
when the drop reaches the effective threshold.  With the item's
`percent_drop` set to 0 and an unchanged price, the drop (0) does reach the
effective threshold (0), yet no alert fires: tracker.go line 118 only runs
the comparison when the threshold is strictly positive, a condition the
claim omits. -/
theorem percentDrop_zero_threshold_not_fired :
    checkItemAlerts ⟨8, none⟩ ⟨"a", "A", "generic", "USD", none, some 0⟩
        [⟨"a", 1, 100, "USD", none⟩, ⟨"a", 2, 100, "USD", none⟩] = [] ∧
    (0 : ℚ) ≤ ((100 - 100) / 100) * 100 := by
  constructor
  · norm_num [checkItemAlerts, GetLatestPrice, GetPrices, sortTsDesc,
      insertTsDesc, List.filter, targetAlertsOf, dropAlertsOf,
      percentDropThreshold]
  · norm_num

/-- C5, amended.  For an item with at least 2 samples in its recent history
and a nonzero previous price (where the exact-rational model agrees with
Go's float semantics), the percent-drop alert fires exactly when the
effective threshold — the item's `percent_drop` when set, else the global
default — is strictly positive and the computed drop
`(previous - current) / previous * 100` reaches it. -/
theorem percentDrop_fires_iff_threshold (rules : RulesConfig)
    (item : ItemConfig) (st : Store) (latest p0 p1 : Row) (rest : List Row)
    (hl : GetLatestPrice st item.id = some latest)
    (hp : GetPrices st item.id 5 = p0 :: p1 :: rest)
    (_hz : p1.price ≠ 0) :
    (Alert.percentDrop item.id latest.price p1.price
        (((p1.price - latest.price) / p1.price) * 100) ∈
        checkItemAlerts rules item st ↔
      0 < percentDropThreshold rules item ∧
        percentDropThreshold rules item ≤
          ((p1.price - latest.price) / p1.price) * 100) := by
  unfold checkItemAlerts
  rw [hl, hp]
  simp only [List.mem_append]
  constructor
  · rintro (h | h)
    · exact absurd h (percentDrop_not_mem_targetAlertsOf item latest item.id
        latest.price p1.price _)
    · exact (mem_dropAlertsOf_iff rules item latest p1).mp h
  · intro h
    exact Or.inr ((mem_dropAlertsOf_iff rules item latest p1).mpr h)

/-- C5, witness: previous price 100, current price 91, item threshold unset
and the global default resolved by `loadPercentDrop` from an unconfigured
(zero) value to 8 — the alert fires with computed drop 9. -/
theorem percentDrop_default_example_witness :
    Alert.percentDrop "a" 91 100 (((100 - 91) / 100) * 100) ∈
      checkItemAlerts ⟨loadPercentDrop 0, none⟩
        ⟨"a", "A", "generic", "USD", none, none⟩
        [⟨"a", 1, 100, "USD", none⟩, ⟨"a", 2, 91, "USD", none⟩] :=
  (percentDrop_fires_iff_threshold ⟨loadPercentDrop 0, none⟩
      ⟨"a", "A", "generic", "USD", none, none⟩
      [⟨"a", 1, 100, "USD", none⟩, ⟨"a", 2, 91, "USD", none⟩]
      ⟨"a", 2, 91, "USD", none⟩ ⟨"a", 2, 91, "USD", none⟩
      ⟨"a", 1, 100, "USD", none⟩ []
      (by norm_num [GetLatestPrice, GetPrices, sortTsDesc, insertTsDesc,
        List.filter])
      (by norm_num [GetPrices, sortTsDesc, insertTsDesc, List.filter])
      (by norm_num)).mpr
    (by norm_num [percentDropThreshold, loadPercentDrop])

/-! ### Claim C6 -/

/-- C6 (the resilience wrapper is modelled from the spec, its package being
absent from the source snapshot).  For every retry attempt `n ≥ 2` and any
jitter value in `[0, baseDelay]`, the backoff delay lies within
`[0, maxDelay + baseDelay]`, and the expected delay (jitter averaged to
`baseDelay / 2`) is non-decreasing in the attempt number, the exponential
term being clamped at `maxDelay`. -/
theorem backoffDelay_bounds_and_monotone (base maxD jitter : ℚ) (n m : Nat)
    (hbase : 0 ≤ base) (hmax : 0 ≤ maxD) (_hn : 2 ≤ n) (hnm : n ≤ m)
    (hj0 : 0 ≤ jitter) (hjb : jitter ≤ base) :
    0 ≤ backoffDelay base maxD n jitter ∧
    backoffDelay base maxD n jitter ≤ maxD + base ∧
    expectedBackoffDelay base maxD n ≤ expectedBackoffDelay base maxD m := by
  have hpow : (0 : ℚ) ≤ base * 2 ^ (n - 2) := by positivity
  refine ⟨?_, ?_, ?_⟩
  · exact add_nonneg (le_min hmax hpow) hj0
  · exact add_le_add (min_le_left _ _) hjb
  · have h2 : base * 2 ^ (n - 2) ≤ base * 2 ^ (m - 2) := by
      apply mul_le_mul_of_nonneg_left _ hbase
      exact pow_le_pow_right₀ (by norm_num) (Nat.sub_le_sub_right hnm 2)
    exact add_le_add_right (min_le_min (le_refl maxD) h2) _

/-- C6, witness at the repository's default retry configuration
(`base_delay_ms: 800`, `max_delay_ms: 7000`), attempt 2 versus attempt 5,
jitter 400. -/
theorem backoffDelay_spec_witness :
    0 ≤ backoffDelay 800 7000 2 400 ∧
    backoffDelay 800 7000 2 400 ≤ 7000 + 800 ∧
    expectedBackoffDelay 800 7000 2 ≤ expectedBackoffDelay 800 7000 5 :=
  backoffDelay_bounds_and_monotone 800 7000 400 2 5 (by norm_num)
    (by norm_num) (by norm_num) (by norm_num) (by norm_num) (by norm_num)

/-! ### Claim C7 -/

/-- C7.  The notification fan-out attempts delivery on every enabled
channel — the attempted list equals the full channel list built from the
configuration, whatever each channel's `send` outcome is — and the overall
call returns `nil` once all channels have been attempted, regardless of how
many individual deliveries failed. -/
theorem notificationManager_send_attempts_all (cfg : NotificationsEnabled)
    (email telegram slack ntfy : NotifChannel) (msg : String) :
    (NotificationManager.Send
        (NotificationManager.build cfg email telegram slack ntfy) msg).1 =
      (NotificationManager.build cfg email telegram slack ntfy).map
        NotifChannel.id ∧
    (NotificationManager.Send
        (NotificationManager.build cfg email telegram slack ntfy) msg).2.2 =
      none :=
  ⟨sendLoop_attempts msg _, rfl⟩

/-! ### Claim C8 -/

/-- C8.  A sample written through `SavePrice` and read back through
`GetPrices(id, 1)` comes back with the same price, currency and metadata,
verbatim, provided the write's timestamp is later than every stored sample
of that item (the monotonic-clock assumption; `ORDER BY ts DESC LIMIT 1`
picks the newest row). -/
theorem savePrice_recentSamples_roundtrip (st : Store) (itemId : String)
    (now : Nat) (price : ℚ) (currency : String) (meta : Option Meta)
    (hfresh : ∀ r ∈ st, r.itemId = itemId → r.ts < now) :
    GetPrices (SavePrice st itemId now price currency meta) itemId 1 =
      [⟨itemId, now, price, currency, meta⟩] := by
  unfold SavePrice GetPrices
  rw [List.filter_append]
  have hnew : (List.filter (fun r => r.itemId == itemId)
      [⟨itemId, now, price, currency, meta⟩] : List Row) =
      [⟨itemId, now, price, currency, meta⟩] := by simp
  rw [hnew, sortTsDesc_append_max]
  · rfl
  · intro r hr
    rw [List.mem_filter] at hr
    exact hfresh r hr.1 (by simpa using hr.2)

/-- C8, witness: a concrete write (price 42, currency TRY, an `in_stock`
metadata entry) over a store holding one older sample reads back verbatim. -/
theorem savePrice_roundtrip_witness :
    GetPrices (SavePrice [⟨"x", 1, 5, "TRY", none⟩] "x" 2 42 "TRY"
        (some [("in_stock", MetaVal.bool true)])) "x" 1 =
      [⟨"x", 2, 42, "TRY", some [("in_stock", MetaVal.bool true)]⟩] :=
  savePrice_recentSamples_roundtrip [⟨"x", 1, 5, "TRY", none⟩] "x" 2 42 "TRY"
    (some [("in_stock", MetaVal.bool true)]) (by simp)

/-! ### Claim C9 -/

/-- C9, counterexample.  `SavePrice` performs no validation: a write with
price 0 and the four-letter currency "ZZZZ" succeeds and is persisted, and
the resulting store violates the spec's claimed invariant. -/
theorem savePrice_accepts_invalid_sample :
    SavePrice [] "x" 1 0 "ZZZZ" none = [⟨"x", 1, 0, "ZZZZ", none⟩] ∧
    ((SavePrice [] "x" 1 0 "ZZZZ" none).all (specSampleInvariant "ZZZZ")) =
      false := by
  constructor
  · rfl
  · norm_num [SavePrice, specSampleInvariant]

/-- C9, amended.  Neither the storage layer nor the tracker validates a
sample: on any successful fetch, `TrackItem` persists the provider's sample
verbatim — whatever its price (zero or negative included) and whatever its
currency string — so the spec's positivity/currency invariant is not
enforced at write time. -/
theorem trackItem_persists_sample_unvalidated (item : ItemConfig) (now : Nat)
    (st : Store) (sample : Sample) :
    TrackItem (.ok ()) (.ok sample) item now st =
      (st ++ [⟨item.id, now, sample.price, sample.currency, sample.meta⟩],
       [TraceEv.save item.id], none) := rfl

/-! ### Claim C10 -/

/-- C10.  When the provider lookup fails, or the lookup succeeds and the
fetch fails, `TrackItem` returns the wrapped error and performs no storage
write: the resulting store is exactly the initial one and the operation
trace is empty. -/
theorem trackItem_failure_leaves_storage_unchanged (e : String)
    (fetch : Except String Sample) (item : ItemConfig) (now : Nat)
    (st : Store) :
    TrackItem (.error e) fetch item now st =
      (st, [], some ("failed to get provider: " ++ e)) ∧
    TrackItem (.ok ()) (.error e) item now st =
      (st, [], some ("failed to fetch price: " ++ e)) :=
  ⟨rfl, rfl⟩

end PriceTrek
